import Mathlib

/-!
Shallow embedding of the statistical core of the perf benchmarking module
(src/perf/__init__.py): the Benchmark aggregate (run storage, validation,
memoised mean, raw-sample scaling) and the significance tester (pooled
sample variance, t-score, critical-value lookup).

Python floats are modelled by PyFloat: exact rational values plus the
three non-finite floats.  Float arithmetic is idealised as exact rational
or real arithmetic (statistics.mean sums exactly via fractions and
math.fsum is a compensated, correctly rounded sum, so the idealisation
drops only the final rounding step).  Fallible Python operations return
Except over an error type mirroring the exception classes the code can
raise.  The significance-test functions, whose claims concern finite
samples, are embedded at exact-rational inputs, with the square root
taken in ℝ.
-/

/-- Python float values: finite values (idealised as exact rationals),
positive infinity, negative infinity, and NaN. -/
inductive PyFloat where
  | val (q : ℚ)
  | inf
  | ninf
  | nan
deriving DecidableEq, Repr

/-- The Python comparison value >= 0 on a float: false for NaN and for
negative values (including negative infinity), true for +infinity. -/
def PyFloat.ge0 : PyFloat → Bool
  | .val q => decide (0 ≤ q)
  | .inf => true
  | .ninf => false
  | .nan => false

/-- Multiplication of a Python float by an integer factor, as evaluated by
sample * factor. -/
def PyFloat.mulInt : PyFloat → ℤ → PyFloat
  | .val q, f => .val (q * f)
  | .inf, f => if 0 < f then .inf else if f < 0 then .ninf else .nan
  | .ninf, f => if 0 < f then .ninf else if f < 0 then .inf else .nan
  | .nan, _ => .nan

/-- Exception classes the embedded code can raise. -/
inductive Err where
  | typeError
  | valueError
  | assertionError
  | zeroDivisionError
  | statisticsError
  | overflowError
  | indexError
deriving DecidableEq, Repr

instance {ε α : Type} [DecidableEq ε] [DecidableEq α] :
    DecidableEq (Except ε α) := fun a b =>
  match a, b with
  | .ok x, .ok y =>
    if h : x = y then .isTrue (by rw [h])
    else .isFalse (fun hh => h (Except.ok.inj hh))
  | .error x, .error y =>
    if h : x = y then .isTrue (by rw [h])
    else .isFalse (fun hh => h (Except.error.inj hh))
  | .ok _, .error _ => .isFalse (fun hh => Except.noConfusion hh)
  | .error _, .ok _ => .isFalse (fun hh => Except.noConfusion hh)

/-- Python division at exact values: ZeroDivisionError on a zero
denominator, otherwise the exact quotient. -/
def pyDiv (a b : ℚ) : Except Err ℚ :=
  if b = 0 then .error .zeroDivisionError else .ok (a / b)

/-- Python round(x) to an integer: round half to even. -/
def pyRound (q : ℚ) : ℤ :=
  let f := q.floor
  if q - f < 1/2 then f
  else if 1/2 < q - f then f + 1
  else if f % 2 = 0 then f else f + 1

/-- Python list indexing with negative-index wraparound; IndexError when
out of range. -/
def pyIndexQ (l : List ℚ) (i : ℤ) : Except Err ℚ :=
  let j := if i < 0 then i + l.length else i
  if 0 ≤ j ∧ j < l.length then .ok (l.getD j.toNat 0) else .error .indexError

/-- Exact values of a list of floats when all of them are finite. -/
def allQ : List PyFloat → Option (List ℚ)
  | [] => some []
  | .val q :: rest => (allQ rest).map (fun t => q :: t)
  | _ => none

/-- Arithmetic mean of a list of exact values: sum divided by length. -/
def meanOf (l : List ℚ) : ℚ := l.sum / l.length

/-- statistics.mean at exact-rational arguments: StatisticsError on an
empty list, otherwise the exact arithmetic mean. -/
def mean_q (l : List ℚ) : Except Err ℚ :=
  if l.isEmpty then .error .statisticsError else .ok (meanOf l)

/-- statistics.mean at stored float samples: StatisticsError on an empty
list; the exact mean of an all-finite list; on non-finite values the
module's exact-fraction conversion fails (OverflowError for an infinity,
collapsed to one class here together with the NaN case). -/
def statMean (l : List PyFloat) : Except Err ℚ :=
  if l.isEmpty then .error .statisticsError
  else match allQ l with
       | some qs => .ok (meanOf qs)
       | none => .error .overflowError

/-- The Benchmark aggregate: name, optional loop scale factors, metadata,
the ordered run list (each run a pair of a samples list and a warmups
list) and the memoised mean cache. -/
structure Benchmark where
  name : Option String
  loops : Option ℤ
  inner_loops : Option ℤ
  metadata : List (String × String)
  _runs : List (List PyFloat × List PyFloat)
  _mean : Option ℚ
deriving DecidableEq, Repr

/-- Benchmark construction: empty run list, cleared mean cache, metadata
defaulting to empty. -/
def Benchmark.init (name : Option String) (loops inner_loops : Option ℤ)
    (metadata : Option (List (String × String))) : Benchmark :=
  ⟨name, loops, inner_loops, metadata.getD [], [], none⟩

/-- Benchmark.add_run: validate samples (non-empty, every value a float
with value >= 0 true), validate warmups likewise when truthy, normalise
an absent or empty warmups argument to the empty tuple, enforce shape
compatibility with the first stored run, then clear the mean cache and
append the new run. -/
def Benchmark.add_run (b : Benchmark) (samples : List PyFloat)
    (warmups : Option (List PyFloat)) : Except Err Benchmark :=
  if samples.isEmpty || samples.any (fun v => ! v.ge0) then
    .error .typeError
  else if (! (warmups.getD []).isEmpty)
          && (warmups.getD []).any (fun v => ! v.ge0) then
    .error .typeError
  else
    match b._runs with
    | [] =>
      .ok ⟨b.name, b.loops, b.inner_loops, b.metadata,
           b._runs ++ [(samples, warmups.getD [])], none⟩
    | first :: _ =>
      if samples.length ≠ first.1.length then .error .valueError
      else if (warmups.getD []).length ≠ first.2.length then .error .valueError
      else
        .ok ⟨b.name, b.loops, b.inner_loops, b.metadata,
             b._runs ++ [(samples, warmups.getD [])], none⟩

/-- Benchmark.get_nrun: number of stored runs. -/
def Benchmark.get_nrun (b : Benchmark) : Nat := b._runs.length

/-- Benchmark.get_runs: copy of the ordered run list. -/
def Benchmark.get_runs (b : Benchmark) : List (List PyFloat × List PyFloat) :=
  b._runs

/-- Benchmark.get_samples: the samples of every run, flattened in run
order (the Python loop extends an accumulator with each run's samples). -/
def Benchmark.get_samples (b : Benchmark) : List PyFloat :=
  (b._runs.map Prod.fst).flatten

/-- Benchmark.mean: return the cached mean if present; otherwise compute
statistics.mean over the flattened samples, cache it and return it (on a
failure the cache stays empty and the error propagates). -/
def Benchmark.mean (b : Benchmark) : Except Err (ℚ × Benchmark) :=
  match b._mean with
  | some m => .ok (m, b)
  | none =>
    match statMean b.get_samples with
    | .ok m =>
      .ok (m, ⟨b.name, b.loops, b.inner_loops, b.metadata, b._runs, some m⟩)
    | .error e => .error e

/-- Benchmark._get_result_raw_samples: multiply each sample by the
product of the loop factors (each defaulting to 1 when unset); when the
combined factor is 1 the list is returned unchanged. -/
def Benchmark._get_result_raw_samples (b : Benchmark)
    (samples : List PyFloat) : List PyFloat :=
  let factor : ℤ := (b.loops.getD 1) * (b.inner_loops.getD 1)
  if factor ≠ 1 then samples.map (fun s => s.mulInt factor) else samples

/-- Benchmark._get_raw_samples: the rescaled samples of every run,
flattened in run order. -/
def Benchmark._get_raw_samples (b : Benchmark) : List PyFloat :=
  (b._runs.map (fun r => b._get_result_raw_samples r.1)).flatten

/-- Mutating operations on an aggregate used to describe reachable
states: add_run with an optional warmups argument, and mean (which may
fill the cache). -/
inductive Op where
  | addRun (samples : List PyFloat) (warmups : Option (List PyFloat))
  | mean

/-- One operation applied to an aggregate: a raised error leaves the
aggregate unchanged (the Python methods mutate only after validation,
and mean caches only on success). -/
def step (b : Benchmark) : Op → Benchmark
  | .addRun s w =>
    match b.add_run s w with
    | .ok b' => b'
    | .error _ => b
  | .mean =>
    match b.mean with
    | .ok p => p.2
    | .error _ => b

/-- A sequence of operations applied in order. -/
def runOps (b : Benchmark) (ops : List Op) : Benchmark := ops.foldl step b

/-- Shape homogeneity: every stored run has the same sample count and the
same warmup count as the first stored run. -/
def homogeneous (b : Benchmark) : Prop :=
  ∀ f, b._runs.head? = some f →
    ∀ r ∈ b._runs, r.1.length = f.1.length ∧ r.2.length = f.2.length

/-- Every stored run has a non-empty samples list. -/
def runsOK (b : Benchmark) : Prop := ∀ r ∈ b._runs, r.1 ≠ []

/-- Cache coherence: a cached mean is exactly what statistics.mean over
the current flattened samples returns. -/
def cacheOK (b : Benchmark) : Prop :=
  ∀ m, b._mean = some m → statMean b.get_samples = .ok m

/-- Invariant of reachable aggregates. -/
def BenchInv (b : Benchmark) : Prop := runsOK b ∧ homogeneous b ∧ cacheOK b

/-- The table of 95% confidence critical values of the two-tailed t
distribution, indexed by degrees of freedom (31 entries, indices 0-30). -/
def _T_DIST_95_CONF_LEVELS : List ℚ :=
  [0, 12.706, 4.303, 3.182, 2.776,
   2.571, 2.447, 2.365, 2.306, 2.262,
   2.228, 2.201, 2.179, 2.160, 2.145,
   2.131, 2.120, 2.110, 2.101, 2.093,
   2.086, 2.080, 2.074, 2.069, 2.064,
   2.060, 2.056, 2.052, 2.048, 2.045,
   2.042]

/-- _tdist95conf_level: round df to the nearest integer (half to even),
then approximate by bands for large df and look the value up in the
table for small df (Python indexing, so a negative rounded df wraps
around from the end of the table). -/
def _tdist95conf_level (df : ℚ) : Except Err ℚ :=
  let n : ℤ := pyRound df
  let highest_table_df : ℤ := _T_DIST_95_CONF_LEVELS.length
  if n ≥ 200 then .ok 1.960
  else if n ≥ 100 then .ok 1.984
  else if n ≥ 80 then .ok 1.990
  else if n ≥ 60 then .ok 2.000
  else if n ≥ 50 then .ok 2.009
  else if n ≥ 40 then .ok 2.021
  else if n ≥ highest_table_df then
    .ok (_T_DIST_95_CONF_LEVELS.getD (_T_DIST_95_CONF_LEVELS.length - 1) 0)
  else pyIndexQ _T_DIST_95_CONF_LEVELS n

/-- _pooled_sample_variance: degrees of freedom n1+n2-2; means of both
samples (StatisticsError on an empty sample); sum of squared deviations
of both samples (math.fsum, exact here); Python division by the degrees
of freedom (ZeroDivisionError when they are zero). -/
def _pooled_sample_variance (s1 s2 : List ℚ) : Except Err ℚ := do
  let deg_freedom : ℤ := (s1.length : ℤ) + (s2.length : ℤ) - 2
  let mean1 ← mean_q s1
  let squares1 := s1.map (fun x => (x - mean1) ^ 2)
  let mean2 ← mean_q s2
  let squares2 := s2.map (fun x => (x - mean2) ^ 2)
  pyDiv (squares1.sum + squares2.sum) (deg_freedom : ℚ)

/-- math.sqrt: ValueError on a negative argument, otherwise the real
square root. -/
noncomputable def pySqrt (x : ℝ) : Except Err ℝ :=
  if x < 0 then .error .valueError else .ok (Real.sqrt x)

/-- Python division at real values: ZeroDivisionError on a zero
denominator. -/
noncomputable def pyDivR (a b : ℝ) : Except Err ℝ :=
  if b = 0 then .error .zeroDivisionError else .ok (a / b)

/-- _tscore: assert equal sample lengths (AssertionError otherwise); the
per-sample error term is the pooled sample variance divided by the
common length; the score is the difference of the means divided by
sqrt(error * 2). -/
noncomputable def _tscore (s1 s2 : List ℚ) : Except Err ℝ :=
  if s1.length = s2.length then do
    let v ← _pooled_sample_variance s1 s2
    let error ← pyDiv v (s1.length : ℚ)
    let m1 ← mean_q s1
    let m2 ← mean_q s2
    let d ← pySqrt ((error : ℝ) * 2)
    pyDivR ((m1 : ℝ) - (m2 : ℝ)) d
  else .error .assertionError

/-- is_significant: degrees of freedom n1+n2-2, the critical value at
those degrees of freedom, the t-score, and the pair (|t| >= critical,
t). -/
noncomputable def is_significant (s1 s2 : List ℚ) :
    Except Err (Bool × ℝ) := do
  let deg_freedom : ℤ := (s1.length : ℤ) + (s2.length : ℤ) - 2
  let critical_value ← _tdist95conf_level (deg_freedom : ℚ)
  let t_score ← _tscore s1 s2
  .ok (if |t_score| ≥ ((critical_value : ℚ) : ℝ) then true else false, t_score)

/-! Helper lemmas. -/

lemma ratFloor_eq (q : ℚ) : q.floor = ⌊q⌋ :=
  (Rat.floor_def' q).trans Rat.floor_def.symm

lemma pyRound_intCast (k : ℤ) : pyRound (k : ℚ) = k := by
  simp [pyRound, ratFloor_eq]

lemma pyIndexQ_ok (l : List ℚ) (i : ℤ) (h0 : 0 ≤ i) (h1 : i < l.length) :
    pyIndexQ l i = .ok (l.getD i.toNat 0) := by
  have hj : (if i < 0 then i + (l.length : ℤ) else i) = i := by
    rw [if_neg (by omega)]
  simp only [pyIndexQ, hj]
  rw [if_pos ⟨h0, h1⟩]

lemma PyFloat.mulInt_one (v : PyFloat) : v.mulInt 1 = v := by
  cases v <;> simp [PyFloat.mulInt]

lemma mean_q_ok (l : List ℚ) (h : l ≠ []) : mean_q l = .ok (meanOf l) := by
  simp [mean_q, h]

lemma exceptBind_ok {α β : Type} (a : α) (f : α → Except Err β) :
    (Except.ok a >>= f : Except Err β) = f a := rfl

lemma exceptBind_error {α β : Type} (e : Err) (f : α → Except Err β) :
    ((Except.error e : Except Err α) >>= f) = .error e := rfl

lemma samples_check_false {s : List PyFloat} (hall : ∀ v ∈ s, v.ge0 = true)
    (hne : s ≠ []) : (s.isEmpty || s.any fun v => ! v.ge0) = false := by
  simp only [Bool.or_eq_false_iff, List.any_eq_false]
  exact ⟨List.isEmpty_eq_false.mpr hne, fun v hv => by simp [hall v hv]⟩

/-- C9: for every pair of sequences of different lengths, the t-score
computation fails on its equal-length assertion (the spec's
ValidationError taxonomy class; the Python exception class is
AssertionError) instead of silently truncating either sequence. -/
theorem c9_tscore_length_mismatch (s1 s2 : List ℚ)
    (h : s1.length ≠ s2.length) :
    _tscore s1 s2 = .error .assertionError := by
  simp only [_tscore]
  rw [if_neg h]

theorem c9_witness :
    List.length [(0 : ℚ)] ≠ List.length [(0 : ℚ), 1] ∧
    _tscore [(0 : ℚ)] [(0 : ℚ), 1] = .error .assertionError :=
  ⟨by decide, c9_tscore_length_mismatch _ _ (by decide)⟩

/-- C3 counterexample: the claim asserts CriticalValue(2) == 3.182, but
the code returns the table value at index 2, which is 4.303 (3.182 is
the entry at index 3). -/
theorem c3_counterexample :
    _tdist95conf_level 2 = .ok 4.303 ∧ _tdist95conf_level 2 ≠ .ok 3.182 := by
  have h2 : pyRound 2 = 2 := by norm_num [pyRound, ratFloor_eq]
  have hv : _tdist95conf_level 2 = .ok 4.303 := by
    simp only [_tdist95conf_level, h2]
    norm_num [_T_DIST_95_CONF_LEVELS]
    rw [pyIndexQ_ok _ _ (by norm_num) (by norm_num [_T_DIST_95_CONF_LEVELS])]
    rfl
  refine ⟨hv, ?_⟩
  rw [hv]
  intro hh
  exact absurd (Except.ok.inj hh) (by norm_num)

/-- C3 (amended): CriticalValue rounds df to the nearest integer and then
follows the banded policy: 1.960 for df >= 200, 1.984 for 100 <= df <
200, 1.990 for 80 <= df < 100, 2.000 for 60 <= df < 80, 2.009 for 50 <=
df < 60, 2.021 for 40 <= df < 50, the last table entry 2.042 for 30 <=
df < 40, and the exact table value at index df for 0 <= df < 30; in
particular CriticalValue(2) == 4.303 (not 3.182, which is the entry at
index 3), CriticalValue(250) == 1.960 and CriticalValue(45) == 2.021. -/
theorem c3_critical_value_policy (df : ℚ) :
    (200 ≤ pyRound df → _tdist95conf_level df = .ok 1.960) ∧
    (100 ≤ pyRound df → pyRound df < 200 → _tdist95conf_level df = .ok 1.984) ∧
    (80 ≤ pyRound df → pyRound df < 100 → _tdist95conf_level df = .ok 1.990) ∧
    (60 ≤ pyRound df → pyRound df < 80 → _tdist95conf_level df = .ok 2.000) ∧
    (50 ≤ pyRound df → pyRound df < 60 → _tdist95conf_level df = .ok 2.009) ∧
    (40 ≤ pyRound df → pyRound df < 50 → _tdist95conf_level df = .ok 2.021) ∧
    (30 ≤ pyRound df → pyRound df < 40 → _tdist95conf_level df = .ok 2.042) ∧
    (0 ≤ pyRound df → pyRound df < 30 →
      _tdist95conf_level df =
        .ok (_T_DIST_95_CONF_LEVELS.getD (pyRound df).toNat 0)) ∧
    (_tdist95conf_level 2 = .ok 4.303 ∧ _tdist95conf_level 250 = .ok 1.960 ∧
      _tdist95conf_level 45 = .ok 2.021) := by
  have hlen : ((_T_DIST_95_CONF_LEVELS.length : ℕ) : ℤ) = 31 := by decide
  have hval2 : _tdist95conf_level 2 = .ok 4.303 := by
    have h2 : pyRound 2 = 2 := by norm_num [pyRound, ratFloor_eq]
    simp only [_tdist95conf_level, h2]
    norm_num [_T_DIST_95_CONF_LEVELS]
    rw [pyIndexQ_ok _ _ (by norm_num) (by norm_num [_T_DIST_95_CONF_LEVELS])]
    rfl
  have hval250 : _tdist95conf_level 250 = .ok 1.960 := by
    have h250 : pyRound 250 = 250 := by norm_num [pyRound, ratFloor_eq]
    simp only [_tdist95conf_level, h250]
    norm_num
  have hval45 : _tdist95conf_level 45 = .ok 2.021 := by
    have h45 : pyRound 45 = 45 := by norm_num [pyRound, ratFloor_eq]
    simp only [_tdist95conf_level, h45]
    norm_num
  refine ⟨?_, ?_, ?_, ?_, ?_, ?_, ?_, ?_, hval2, hval250, hval45⟩
  · intro h
    simp only [_tdist95conf_level]
    rw [if_pos (by omega)]
  · intro h h2
    simp only [_tdist95conf_level]
    rw [if_neg (by omega), if_pos (by omega)]
  · intro h h2
    simp only [_tdist95conf_level]
    rw [if_neg (by omega), if_neg (by omega), if_pos (by omega)]
  · intro h h2
    simp only [_tdist95conf_level]
    rw [if_neg (by omega), if_neg (by omega), if_neg (by omega),
      if_pos (by omega)]
  · intro h h2
    simp only [_tdist95conf_level]
    rw [if_neg (by omega), if_neg (by omega), if_neg (by omega),
      if_neg (by omega), if_pos (by omega)]
  · intro h h2
    simp only [_tdist95conf_level]
    rw [if_neg (by omega), if_neg (by omega), if_neg (by omega),
      if_neg (by omega), if_neg (by omega), if_pos (by omega)]
  · intro h h2
    simp only [_tdist95conf_level, hlen]
    by_cases h31 : 31 ≤ pyRound df
    · rw [if_neg (by omega), if_neg (by omega), if_neg (by omega),
        if_neg (by omega), if_neg (by omega), if_neg (by omega),
        if_pos (by omega)]
      rfl
    · have h30 : pyRound df = 30 := by omega
      rw [if_neg (by omega), if_neg (by omega), if_neg (by omega),
        if_neg (by omega), if_neg (by omega), if_neg (by omega),
        if_neg (by omega), h30]
      rfl
  · intro h h2
    simp only [_tdist95conf_level, hlen]
    rw [if_neg (by omega), if_neg (by omega), if_neg (by omega),
      if_neg (by omega), if_neg (by omega), if_neg (by omega),
      if_neg (by omega)]
    exact pyIndexQ_ok _ _ (by omega) (by rw [hlen]; omega)

theorem c3_witness :
    (40 ≤ pyRound 45 ∧ pyRound 45 < 50) ∧ _tdist95conf_level 45 = .ok 2.021 :=
  ⟨by norm_num [pyRound, ratFloor_eq],
    (c3_critical_value_policy 45).2.2.2.2.2.1
      (by norm_num [pyRound, ratFloor_eq]) (by norm_num [pyRound, ratFloor_eq])⟩

/-- C2: for non-empty samples, the pooled sample variance fails with
ZeroDivisionError exactly when both samples have length 1 (degrees of
freedom zero), and otherwise returns the sum of squared deviations from
each sample's mean divided by the degrees of freedom n1+n2-2 (the
summation is math.fsum, a compensated sum, exact in this embedding). -/
theorem c2_pooled_variance (s1 s2 : List ℚ) (h1 : s1 ≠ []) (h2 : s2 ≠ []) :
    (s1.length = 1 ∧ s2.length = 1 →
      _pooled_sample_variance s1 s2 = .error .zeroDivisionError) ∧
    (¬(s1.length = 1 ∧ s2.length = 1) →
      _pooled_sample_variance s1 s2 =
        .ok (((s1.map (fun x => (x - meanOf s1) ^ 2)).sum +
              (s2.map (fun x => (x - meanOf s2) ^ 2)).sum) /
             ((s1.length : ℚ) + (s2.length : ℚ) - 2))) := by
  have hm1 := mean_q_ok s1 h1
  have hm2 := mean_q_ok s2 h2
  have hone : 1 ≤ s1.length := List.length_pos.mpr h1
  have hone2 : 1 ≤ s2.length := List.length_pos.mpr h2
  constructor
  · rintro ⟨e1, e2⟩
    simp only [_pooled_sample_variance, hm1, hm2, exceptBind_ok, e1, e2,
      pyDiv]
    norm_num
  · intro hne
    have hz : (s1.length : ℤ) + (s2.length : ℤ) - 2 ≠ 0 := by omega
    have hdf : (((s1.length : ℤ) + (s2.length : ℤ) - 2 : ℤ) : ℚ) ≠ 0 := by
      exact_mod_cast hz
    simp only [_pooled_sample_variance, hm1, hm2, exceptBind_ok, pyDiv,
      if_neg hdf]
    congr 1
    push_cast
    ring

theorem c2_witness :
    ([(0 : ℚ), 2] ≠ [] ∧ [(5 : ℚ), 5] ≠ []) ∧
    _pooled_sample_variance [(0 : ℚ), 2] [(5 : ℚ), 5] = .ok 1 := by
  refine ⟨⟨by decide, by decide⟩, ?_⟩
  have h := (c2_pooled_variance [(0 : ℚ), 2] [(5 : ℚ), 5]
    (by decide) (by decide)).2 (by decide)
  rw [h]
  norm_num [meanOf]

/-- C6 counterexample: positive infinity is not a finite number, yet a
run whose samples contain it is accepted by add_run (the Python check is
only isinstance(value, float) and value >= 0, and inf >= 0 is true), so
the claimed ValidationError is not raised. -/
theorem c6_counterexample :
    (Benchmark.init none none none none).add_run [PyFloat.inf] none =
      .ok ⟨none, none, none, [], [([PyFloat.inf], [])], none⟩ := by
  decide

/-- C6 (amended): add_run fails with the ValidationError-class TypeError
if the samples sequence is empty or contains any value v whose float
comparison v >= 0 is false (a negative value, negative infinity or NaN
— but positive infinity passes), and likewise fails if the warmups
sequence is non-empty and contains such a value. -/
theorem c6_add_run_validation (b : Benchmark) (s ws : List PyFloat) :
    (∀ w : Option (List PyFloat), (s = [] ∨ ∃ v ∈ s, v.ge0 = false) →
      b.add_run s w = .error .typeError) ∧
    ((∀ v ∈ s, v.ge0 = true) → s ≠ [] → ws ≠ [] →
      (∃ v ∈ ws, v.ge0 = false) →
      b.add_run s (some ws) = .error .typeError) := by
  constructor
  · intro w hbad
    have hc : (s.isEmpty || s.any fun v => ! v.ge0) = true := by
      rcases hbad with h | ⟨v, hv, hfalse⟩
      · simp [h]
      · simp only [Bool.or_eq_true, List.any_eq_true]
        exact Or.inr ⟨v, hv, by simp [hfalse]⟩
    unfold Benchmark.add_run
    rw [if_pos hc]
  · intro hall hne hwne hbad
    have hc1 := samples_check_false hall hne
    have hc2 : ((! ((some ws).getD [] : List PyFloat).isEmpty)
        && ((some ws).getD [] : List PyFloat).any fun v => ! v.ge0) = true := by
      obtain ⟨v, hv, hfalse⟩ := hbad
      simp only [Option.getD_some, Bool.and_eq_true, Bool.not_eq_true',
        List.any_eq_true]
      exact ⟨List.isEmpty_eq_false.mpr hwne, v, hv, by simp [hfalse]⟩
    unfold Benchmark.add_run
    rw [if_neg (by simp [hc1]), if_pos hc2]

theorem c6_witness :
    (∃ v ∈ [PyFloat.val (-1)], v.ge0 = false) ∧
    (Benchmark.init none none none none).add_run [PyFloat.val (-1)] none =
      .error .typeError :=
  ⟨by decide,
    (c6_add_run_validation (Benchmark.init none none none none)
      [PyFloat.val (-1)] []).1 none (Or.inr (by decide))⟩

/-- C8: the raw samples are exactly the flattened samples with each value
multiplied by loops * inner_loops (an unset factor defaulting to 1); in
particular loops=2 and inner_loops=3 turn samples [1.0, 2.0] into
[6.0, 12.0], and with both factors unset the raw samples equal the
samples. -/
theorem c8_raw_samples (b : Benchmark) :
    b._get_raw_samples =
      b.get_samples.map
        (fun v => v.mulInt ((b.loops.getD 1) * (b.inner_loops.getD 1))) ∧
    (b.loops = none → b.inner_loops = none →
      b._get_raw_samples = b.get_samples) ∧
    (Benchmark.mk none (some 2) (some 3) []
        [([PyFloat.val 1, PyFloat.val 2], [])] none)._get_raw_samples =
      [PyFloat.val 6, PyFloat.val 12] := by
  have key : ∀ bb : Benchmark, bb._get_raw_samples =
      bb.get_samples.map
        (fun v => v.mulInt ((bb.loops.getD 1) * (bb.inner_loops.getD 1))) := by
    intro bb
    unfold Benchmark._get_raw_samples Benchmark.get_samples
      Benchmark._get_result_raw_samples
    by_cases hf : ((bb.loops.getD 1) * (bb.inner_loops.getD 1)) = 1
    · simp only [hf, ne_eq, not_true_eq_false, if_false, List.map_flatten,
        List.map_map, PyFloat.mulInt_one]
      simp
    · simp only [ne_eq, hf, not_false_eq_true, if_true, List.map_flatten,
        List.map_map]
      rfl
  refine ⟨key b, fun hl hi => ?_, ?_⟩
  · rw [key b, hl, hi]
    simp [PyFloat.mulInt_one]
  · rw [key]
    norm_num [Benchmark.get_samples, PyFloat.mulInt]

theorem c8_witness :
    ((Benchmark.init none none none (some [])).loops = none ∧
      (Benchmark.init none none none (some [])).inner_loops = none) ∧
    (Benchmark.init none none none (some []))._get_raw_samples =
      (Benchmark.init none none none (some [])).get_samples :=
  ⟨⟨rfl, rfl⟩,
    (c8_raw_samples (Benchmark.init none none none (some []))).2.1 rfl rfl⟩

/-- C10: calling add_run with the warmups argument omitted (None) is
indistinguishable from calling it with an explicitly empty warmups
sequence, and on valid non-empty samples compatible with the first run
it succeeds, storing the run with an empty warmups tuple. -/
theorem c10_omitted_warmups (b : Benchmark) (s : List PyFloat) :
    b.add_run s none = b.add_run s (some []) ∧
    ((∀ v ∈ s, v.ge0 = true) → s ≠ [] →
      (∀ f, b._runs.head? = some f →
        s.length = f.1.length ∧ f.2.length = 0) →
      b.add_run s none =
        .ok ⟨b.name, b.loops, b.inner_loops, b.metadata,
             b._runs ++ [(s, [])], none⟩) := by
  constructor
  · rfl
  · intro hall hne hcompat
    have hc1 := samples_check_false hall hne
    unfold Benchmark.add_run
    rw [if_neg (by simp [hc1]), if_neg (by simp)]
    cases hr : b._runs with
    | nil => rfl
    | cons f rest =>
      have hf := hcompat f (by rw [hr]; rfl)
      simp [hf.1, hf.2]

theorem c10_witness :
    (∀ v ∈ [PyFloat.val 1], v.ge0 = true) ∧
    (Benchmark.init none none none none).add_run [PyFloat.val 1] none =
      .ok ⟨none, none, none, [], [([PyFloat.val 1], [])], none⟩ :=
  ⟨by decide,
    (c10_omitted_warmups (Benchmark.init none none none none)
      [PyFloat.val 1]).2 (by decide) (by decide)
      (fun f hf => by simp [Benchmark.init] at hf)⟩

lemma add_run_ok_spec {b : Benchmark} {s : List PyFloat}
    {w : Option (List PyFloat)} {b' : Benchmark}
    (h : b.add_run s w = .ok b') :
    b' = ⟨b.name, b.loops, b.inner_loops, b.metadata,
          b._runs ++ [(s, w.getD [])], none⟩ ∧ s ≠ [] ∧
    (∀ f, b._runs.head? = some f →
      s.length = f.1.length ∧ (w.getD []).length = f.2.length) := by
  unfold Benchmark.add_run at h
  split at h
  · exact absurd h (by simp)
  next hc1 =>
    split at h
    · exact absurd h (by simp)
    next hc2 =>
      have hsne : s ≠ [] := by
        intro hs
        subst hs
        simp at hc1
      split at h
      next hr =>
        refine ⟨(Except.ok.inj h).symm, hsne, ?_⟩
        intro f hf
        rw [hr] at hf
        simp at hf
      next first tail hr =>
        split at h
        · exact absurd h (by simp)
        next hlen1 =>
          split at h
          · exact absurd h (by simp)
          next hlen2 =>
            refine ⟨(Except.ok.inj h).symm, hsne, ?_⟩
            intro f hf
            rw [hr] at hf
            simp only [List.head?_cons, Option.some.injEq] at hf
            subst hf
            exact ⟨not_not.mp hlen1, not_not.mp hlen2⟩

lemma mean_of_some {b : Benchmark} {m : ℚ} (hm : b._mean = some m) :
    b.mean = .ok (m, b) := by
  simp only [Benchmark.mean, hm]

lemma mean_of_none {b : Benchmark} {m : ℚ} (hm : b._mean = none)
    (hs : statMean b.get_samples = .ok m) :
    b.mean = .ok (m, ⟨b.name, b.loops, b.inner_loops, b.metadata,
                     b._runs, some m⟩) := by
  simp only [Benchmark.mean, hm, hs]

lemma mean_of_statError {b : Benchmark} {e : Err} (hm : b._mean = none)
    (hs : statMean b.get_samples = .error e) : b.mean = .error e := by
  simp only [Benchmark.mean, hm, hs]

lemma mean_ok_spec {b : Benchmark} {m : ℚ} {b' : Benchmark}
    (h : b.mean = .ok (m, b')) :
    (b._mean = some m ∧ b' = b) ∨
    (b._mean = none ∧ statMean b.get_samples = .ok m ∧
      b' = ⟨b.name, b.loops, b.inner_loops, b.metadata, b._runs, some m⟩) := by
  unfold Benchmark.mean at h
  split at h
  next m0 hm =>
    injection h with h2
    injection h2 with hm' hb'
    subst hm'
    subst hb'
    exact Or.inl ⟨hm, rfl⟩
  next hm =>
    split at h
    next m0 hs =>
      injection h with h2
      injection h2 with hm' hb'
      subst hm'
      subst hb'
      exact Or.inr ⟨hm, hs, rfl⟩
    next e hs => exact absurd h (by simp)

lemma inv_step {b : Benchmark} (h : BenchInv b) (op : Op) :
    BenchInv (step b op) := by
  obtain ⟨hruns, hhom, hcache⟩ := h
  cases op with
  | addRun s w =>
    cases hres : b.add_run s w with
    | error e =>
      simp only [step, hres]
      exact ⟨hruns, hhom, hcache⟩
    | ok b' =>
      simp only [step, hres]
      obtain ⟨hb', hsne, hcompat⟩ := add_run_ok_spec hres
      subst hb'
      refine ⟨?_, ?_, ?_⟩
      · intro r hr
        rcases List.mem_append.mp hr with h1 | h1
        · exact hruns r h1
        · rw [List.mem_singleton.mp h1]
          exact hsne
      · intro f hf r hr
        cases hbr : b._runs with
        | nil =>
          rw [hbr] at hf hr
          simp only [List.nil_append, List.head?_cons,
            Option.some.injEq] at hf
          subst hf
          have hr' : r = (s, w.getD []) := by simpa using hr
          rw [hr']
          exact ⟨rfl, rfl⟩
        | cons f0 tail =>
          rw [hbr] at hf hr
          simp only [List.cons_append, List.head?_cons,
            Option.some.injEq] at hf
          subst hf
          have hr2 : r ∈ (f0 :: tail) ++ [(s, w.getD [])] := hr
          rcases List.mem_append.mp hr2 with h1 | h1
          · exact hhom f0 (by rw [hbr]; rfl) r (by rw [hbr]; exact h1)
          · rw [List.mem_singleton.mp h1]
            exact hcompat f0 (by rw [hbr]; rfl)
      · intro m hm
        simp at hm
  | mean =>
    cases hres : b.mean with
    | error e =>
      simp only [step, hres]
      exact ⟨hruns, hhom, hcache⟩
    | ok p =>
      obtain ⟨m, b'⟩ := p
      simp only [step, hres]
      rcases mean_ok_spec hres with ⟨hm, rfl⟩ | ⟨hm, hs, rfl⟩
      · exact ⟨hruns, hhom, hcache⟩
      · refine ⟨hruns, hhom, ?_⟩
        intro m' hm'
        simp only [Option.some.injEq] at hm'
        rw [← hm']
        exact hs

lemma inv_init (name : Option String) (loops il : Option ℤ)
    (md : Option (List (String × String))) :
    BenchInv (Benchmark.init name loops il md) := by
  refine ⟨?_, ?_, ?_⟩
  · intro r hr
    simp [Benchmark.init] at hr
  · intro f hf
    simp [Benchmark.init] at hf
  · intro m hm
    simp [Benchmark.init] at hm

lemma inv_runOps (ops : List Op) (b : Benchmark) (h : BenchInv b) :
    BenchInv (runOps b ops) := by
  induction ops generalizing b with
  | nil => exact h
  | cons op rest ih => exact ih _ (inv_step h op)

lemma get_samples_ne {b : Benchmark} (hruns : runsOK b)
    (hne : b._runs ≠ []) : b.get_samples ≠ [] := by
  cases hbr : b._runs with
  | nil => exact absurd hbr hne
  | cons r tail =>
    have hr1 : r.1 ≠ [] := hruns r (by rw [hbr]; exact List.mem_cons_self r tail)
    unfold Benchmark.get_samples
    rw [hbr]
    simp only [List.map_cons, List.flatten_cons]
    exact fun hc => hr1 (List.append_eq_nil.mp hc).1

lemma statMean_ok {l : List PyFloat} {qs : List ℚ} (hne : l ≠ [])
    (hall : allQ l = some qs) : statMean l = .ok (meanOf qs) := by
  simp [statMean, List.isEmpty_eq_false.mpr hne, hall]

lemma add_run_mismatch {b : Benchmark} {s : List PyFloat}
    {w : Option (List PyFloat)} {f : List PyFloat × List PyFloat}
    (hf : b._runs.head? = some f)
    (hmis : s.length ≠ f.1.length ∨ (w.getD []).length ≠ f.2.length) :
    b.add_run s w = .error .typeError ∨
      b.add_run s w = .error .valueError := by
  unfold Benchmark.add_run
  split
  · exact Or.inl rfl
  · split
    · exact Or.inl rfl
    · split
      next hr =>
        rw [hr] at hf
        simp at hf
      next first tail hr =>
        rw [hr] at hf
        simp only [List.head?_cons, Option.some.injEq] at hf
        subst hf
        rcases hmis with h | h
        · rw [if_pos h]
          exact Or.inr rfl
        · by_cases h1 : s.length ≠ first.1.length
          · rw [if_pos h1]
            exact Or.inr rfl
          · rw [if_neg h1, if_pos h]
            exact Or.inr rfl

lemma step_addRun_of_error {b : Benchmark} {s : List PyFloat}
    {w : Option (List PyFloat)} {e : Err} (h : b.add_run s w = .error e) :
    step b (.addRun s w) = b := by
  simp only [step, h]

/-- C7: every aggregate reachable from a fresh one by add_run and mean
operations is shape-homogeneous (every stored run has the first run's
sample count and warmup count); an add_run whose sample count or warmup
count differs from the first stored run's fails (with the
ValidationError-class TypeError or ValueError) and leaves the aggregate
unchanged; in particular after a valid one-sample add_run, an add_run
with two samples fails and the run count stays 1. -/
theorem c7_shape_homogeneity (name : Option String) (loops il : Option ℤ)
    (md : Option (List (String × String))) (ops : List Op) :
    homogeneous (runOps (Benchmark.init name loops il md) ops) ∧
    (∀ (s : List PyFloat) (w : Option (List PyFloat))
        (f : List PyFloat × List PyFloat),
      (runOps (Benchmark.init name loops il md) ops)._runs.head? = some f →
      (s.length ≠ f.1.length ∨ (w.getD []).length ≠ f.2.length) →
      ((runOps (Benchmark.init name loops il md) ops).add_run s w =
          .error .typeError ∨
        (runOps (Benchmark.init name loops il md) ops).add_run s w =
          .error .valueError) ∧
      step (runOps (Benchmark.init name loops il md) ops) (.addRun s w) =
        runOps (Benchmark.init name loops il md) ops) ∧
    (runOps (Benchmark.init name loops il md)
        [.addRun [PyFloat.val 1] none,
         .addRun [PyFloat.val 1, PyFloat.val 1] none]).get_nrun = 1 := by
  obtain ⟨hruns, hhom, hcache⟩ :=
    inv_runOps ops _ (inv_init name loops il md)
  refine ⟨hhom, ?_, ?_⟩
  · intro s w f hf hmis
    rcases add_run_mismatch hf hmis with h | h
    · exact ⟨Or.inl h, step_addRun_of_error h⟩
    · exact ⟨Or.inr h, step_addRun_of_error h⟩
  · norm_num [runOps, step, Benchmark.add_run, Benchmark.init,
      Benchmark.get_nrun, PyFloat.ge0]

theorem c7_witness :
    (runOps (Benchmark.init none none none none)
        [.addRun [PyFloat.val 1] (some [PyFloat.val 2])])._runs.head? =
      some ([PyFloat.val 1], [PyFloat.val 2]) ∧
    (((runOps (Benchmark.init none none none none)
        [.addRun [PyFloat.val 1] (some [PyFloat.val 2])]).add_run
          [PyFloat.val 1, PyFloat.val 1] none = .error .typeError ∨
      (runOps (Benchmark.init none none none none)
        [.addRun [PyFloat.val 1] (some [PyFloat.val 2])]).add_run
          [PyFloat.val 1, PyFloat.val 1] none = .error .valueError) ∧
      step (runOps (Benchmark.init none none none none)
          [.addRun [PyFloat.val 1] (some [PyFloat.val 2])])
          (.addRun [PyFloat.val 1, PyFloat.val 1] none) =
        runOps (Benchmark.init none none none none)
          [.addRun [PyFloat.val 1] (some [PyFloat.val 2])]) :=
  ⟨by decide,
    (c7_shape_homogeneity none none none none
        [.addRun [PyFloat.val 1] (some [PyFloat.val 2])]).2.1
      [PyFloat.val 1, PyFloat.val 1] none ([PyFloat.val 1], [PyFloat.val 2])
      (by decide) (by decide)⟩

/-- C5: for every aggregate reachable from a fresh one by add_run and
mean operations, if at least one run was added (and the stored samples
are finite, so that their arithmetic mean is the exact rational meanOf),
mean returns the arithmetic mean of the flattened samples of all runs,
warmups excluded — the cache cleared by every add_run can never hold a
stale value — and if no runs exist, mean fails with StatisticsError. -/
theorem c5_mean_correct (name : Option String) (loops il : Option ℤ)
    (md : Option (List (String × String))) (ops : List Op) (qs : List ℚ) :
    ((runOps (Benchmark.init name loops il md) ops)._runs ≠ [] →
      allQ (runOps (Benchmark.init name loops il md) ops).get_samples =
        some qs →
      ∃ b', (runOps (Benchmark.init name loops il md) ops).mean =
        .ok (meanOf qs, b')) ∧
    ((runOps (Benchmark.init name loops il md) ops)._runs = [] →
      (runOps (Benchmark.init name loops il md) ops).mean =
        .error .statisticsError) := by
  obtain ⟨hruns, hhom, hcache⟩ :=
    inv_runOps ops _ (inv_init name loops il md)
  constructor
  · intro hne hall
    have hsne := get_samples_ne hruns hne
    have hstat := statMean_ok hsne hall
    cases hm : (runOps (Benchmark.init name loops il md) ops)._mean with
    | none => exact ⟨_, mean_of_none hm hstat⟩
    | some m =>
      have hc := hcache m hm
      have hmq : m = meanOf qs := Except.ok.inj (hc.symm.trans hstat)
      exact ⟨_, by rw [mean_of_some hm, hmq]⟩
  · intro hnil
    have hsempty :
        (runOps (Benchmark.init name loops il md) ops).get_samples = [] := by
      unfold Benchmark.get_samples
      rw [hnil]
      rfl
    have hstat :
        statMean (runOps (Benchmark.init name loops il md) ops).get_samples =
          .error .statisticsError := by
      rw [hsempty]
      rfl
    cases hm : (runOps (Benchmark.init name loops il md) ops)._mean with
    | none => exact mean_of_statError hm hstat
    | some m =>
      have hc := hcache m hm
      rw [hstat] at hc
      exact absurd hc (by simp)

theorem c5_witness :
    (runOps (Benchmark.init none none none none)
        [.addRun [PyFloat.val 1, PyFloat.val 3] none])._runs ≠ [] ∧
    allQ (runOps (Benchmark.init none none none none)
        [.addRun [PyFloat.val 1, PyFloat.val 3] none]).get_samples =
      some [1, 3] ∧
    ∃ b', (runOps (Benchmark.init none none none none)
        [.addRun [PyFloat.val 1, PyFloat.val 3] none]).mean =
      .ok (meanOf [1, 3], b') :=
  ⟨by decide, by decide,
    (c5_mean_correct none none none none
        [.addRun [PyFloat.val 1, PyFloat.val 3] none] [1, 3]).1
      (by decide) (by decide)⟩

lemma tdist_int_ok (k : ℤ) (hk : 0 ≤ k) :
    ∃ c, _tdist95conf_level (k : ℚ) = .ok c := by
  simp only [_tdist95conf_level, pyRound_intCast]
  split_ifs with h1 h2 h3 h4 h5 h6 h7
  · exact ⟨_, rfl⟩
  · exact ⟨_, rfl⟩
  · exact ⟨_, rfl⟩
  · exact ⟨_, rfl⟩
  · exact ⟨_, rfl⟩
  · exact ⟨_, rfl⟩
  · exact ⟨_, rfl⟩
  · exact ⟨_, pyIndexQ_ok _ _ hk (not_le.mp h7)⟩

lemma pooled_ok_nonneg {s1 s2 : List ℚ} {v : ℚ}
    (h : _pooled_sample_variance s1 s2 = .ok v) : 0 ≤ v := by
  by_cases h1 : s1 = []
  · subst h1
    simp [_pooled_sample_variance, mean_q, exceptBind_error] at h
  by_cases h2 : s2 = []
  · subst h2
    simp [_pooled_sample_variance, mean_q, List.isEmpty_eq_false.mpr h1,
      exceptBind_ok, exceptBind_error] at h
  simp only [_pooled_sample_variance, mean_q_ok s1 h1, mean_q_ok s2 h2,
    exceptBind_ok, pyDiv] at h
  split at h
  · exact absurd h (by simp)
  next hden =>
    have hv := Except.ok.inj h
    rw [← hv]
    have hnum : 0 ≤ (s1.map (fun x => (x - meanOf s1) ^ 2)).sum +
        (s2.map (fun x => (x - meanOf s2) ^ 2)).sum := by
      apply add_nonneg <;> apply List.sum_nonneg <;> intro x hx <;>
        obtain ⟨y, hy, rfl⟩ := List.mem_map.mp hx <;> positivity
    have hlen1 : 1 ≤ s1.length := List.length_pos.mpr h1
    have hlen2 : 1 ≤ s2.length := List.length_pos.mpr h2
    have hznz : (s1.length : ℤ) + (s2.length : ℤ) - 2 ≠ 0 := by
      intro hc
      exact hden (by exact_mod_cast hc)
    have hdpos : (0 : ℤ) < (s1.length : ℤ) + (s2.length : ℤ) - 2 := by omega
    have hdq : (0 : ℚ) < (((s1.length : ℤ) + (s2.length : ℤ) - 2 : ℤ) : ℚ) := by
      exact_mod_cast hdpos
    exact div_nonneg hnum (le_of_lt hdq)

lemma tscore_ok {s1 s2 : List ℚ} {v : ℚ}
    (hlen : s1.length = s2.length) (h1 : s1 ≠ []) (h2 : s2 ≠ [])
    (hv : _pooled_sample_variance s1 s2 = .ok v) (hvpos : 0 < v) :
    _tscore s1 s2 =
      .ok (((meanOf s1 : ℝ) - (meanOf s2 : ℝ)) /
        Real.sqrt (((v / s1.length : ℚ) : ℝ) * 2)) := by
  have hn1 : 0 < s1.length := List.length_pos.mpr h1
  have hlen0 : (s1.length : ℚ) ≠ 0 := Nat.cast_ne_zero.mpr (by omega)
  have herr : pyDiv v (s1.length : ℚ) = .ok (v / s1.length) := by
    unfold pyDiv
    rw [if_neg hlen0]
  have hargpos : (0 : ℝ) < ((v / s1.length : ℚ) : ℝ) * 2 := by
    have hq : (0 : ℚ) < v / s1.length :=
      div_pos hvpos (by exact_mod_cast hn1)
    have hr : (0 : ℝ) < ((v / s1.length : ℚ) : ℝ) := by exact_mod_cast hq
    linarith
  have hsq : pySqrt (((v / s1.length : ℚ) : ℝ) * 2) =
      .ok (Real.sqrt (((v / s1.length : ℚ) : ℝ) * 2)) := by
    unfold pySqrt
    rw [if_neg (not_lt.mpr (le_of_lt hargpos))]
  have hd0 : Real.sqrt (((v / s1.length : ℚ) : ℝ) * 2) ≠ 0 :=
    fun hz => absurd (Real.sqrt_eq_zero'.mp hz) (not_le.mpr hargpos)
  have hdiv : pyDivR ((meanOf s1 : ℝ) - (meanOf s2 : ℝ))
      (Real.sqrt (((v / s1.length : ℚ) : ℝ) * 2)) =
      .ok (((meanOf s1 : ℝ) - (meanOf s2 : ℝ)) /
        Real.sqrt (((v / s1.length : ℚ) : ℝ) * 2)) := by
    unfold pyDivR
    rw [if_neg hd0]
  unfold _tscore
  rw [if_pos hlen]
  simp only [hv, exceptBind_ok, herr, mean_q_ok s1 h1, mean_q_ok s2 h2,
    hsq, hdiv]

/-- C1 (amended): for equal-length samples of common length at least 2
whose pooled sample variance is a nonzero value v, is_significant
returns the pair (isSignificant, tScore) with
tScore = (mean(sample1) - mean(sample2)) / sqrt(2 * (v / len(sample1)))
and isSignificant = (|tScore| >= CriticalValue(len1 + len2 - 2)); the
claim's unrestricted form fails: with both lengths 1 the degrees of
freedom are zero and the call raises ZeroDivisionError (and a zero
pooled variance likewise makes the t-score division raise). -/
theorem c1_is_significant_formula (s1 s2 : List ℚ) (v : ℚ)
    (hlen : s1.length = s2.length) (hn : 2 ≤ s1.length)
    (hv : _pooled_sample_variance s1 s2 = .ok v) (hv0 : v ≠ 0) :
    ∃ c, _tdist95conf_level
        (((s1.length : ℤ) + (s2.length : ℤ) - 2 : ℤ) : ℚ) = .ok c ∧
      is_significant s1 s2 =
        .ok ((if |((meanOf s1 : ℝ) - (meanOf s2 : ℝ)) /
                Real.sqrt (2 * ((v : ℝ) / (s1.length : ℝ)))| ≥ (c : ℝ)
              then true else false),
          ((meanOf s1 : ℝ) - (meanOf s2 : ℝ)) /
            Real.sqrt (2 * ((v : ℝ) / (s1.length : ℝ)))) := by
  have h1 : s1 ≠ [] := by
    intro h
    rw [h] at hn
    simp at hn
  have h2 : s2 ≠ [] := by
    intro h
    rw [h] at hlen
    simp only [List.length_nil] at hlen
    omega
  have hvpos : 0 < v := lt_of_le_of_ne (pooled_ok_nonneg hv) (Ne.symm hv0)
  have hdf : (0 : ℤ) ≤ (s1.length : ℤ) + (s2.length : ℤ) - 2 := by
    have h2len : 1 ≤ s2.length := List.length_pos.mpr h2
    omega
  obtain ⟨c, hc⟩ := tdist_int_ok ((s1.length : ℤ) + (s2.length : ℤ) - 2) hdf
  have ht := tscore_ok hlen h1 h2 hv hvpos
  have harg : (((v / s1.length : ℚ) : ℝ) * 2) =
      2 * ((v : ℝ) / (s1.length : ℝ)) := by
    push_cast
    ring
  refine ⟨c, hc, ?_⟩
  unfold is_significant
  simp only [hc, exceptBind_ok, ht, harg]

/-- C1 counterexample: both samples [1.0] are equal-length and non-empty,
but is_significant raises ZeroDivisionError (degrees of freedom zero in
the pooled variance) instead of returning any pair. -/
theorem c1_counterexample :
    is_significant [(1 : ℚ)] [(1 : ℚ)] = .error .zeroDivisionError := by
  have hp : _pooled_sample_variance [(1 : ℚ)] [(1 : ℚ)] =
      .error .zeroDivisionError := by decide
  have ht : _tscore [(1 : ℚ)] [(1 : ℚ)] = .error .zeroDivisionError := by
    unfold _tscore
    rw [if_pos rfl]
    simp only [hp, exceptBind_error]
  have hdfq : (((List.length [(1 : ℚ)] : ℤ) +
      (List.length [(1 : ℚ)] : ℤ) - 2 : ℤ) : ℚ) = ((0 : ℤ) : ℚ) := by
    norm_num
  have hcrit : _tdist95conf_level ((0 : ℤ) : ℚ) = .ok 0 := by
    simp only [_tdist95conf_level, pyRound_intCast]
    norm_num [_T_DIST_95_CONF_LEVELS]
    rw [pyIndexQ_ok _ _ (by norm_num) (by norm_num [_T_DIST_95_CONF_LEVELS])]
    rfl
  unfold is_significant
  simp only [hdfq, hcrit, exceptBind_ok, ht, exceptBind_error]

lemma pooled_02_55 : _pooled_sample_variance [(0 : ℚ), 2] [(5 : ℚ), 5] =
    .ok 1 := by
  norm_num [_pooled_sample_variance, mean_q, meanOf, pyDiv, exceptBind_ok,
    List.sum_cons, List.sum_nil]

theorem c1_witness :
    (List.length [(0 : ℚ), 2] = List.length [(5 : ℚ), 5] ∧
      2 ≤ List.length [(0 : ℚ), 2] ∧
      _pooled_sample_variance [(0 : ℚ), 2] [(5 : ℚ), 5] = .ok 1 ∧
      (1 : ℚ) ≠ 0) ∧
    (∃ c, _tdist95conf_level
        (((List.length [(0 : ℚ), 2] : ℤ) +
          (List.length [(5 : ℚ), 5] : ℤ) - 2 : ℤ) : ℚ) = .ok c ∧
      is_significant [(0 : ℚ), 2] [(5 : ℚ), 5] =
        .ok ((if |((meanOf [(0 : ℚ), 2] : ℝ) - (meanOf [(5 : ℚ), 5] : ℝ)) /
                Real.sqrt (2 * (((1 : ℚ) : ℝ) /
                  (List.length [(0 : ℚ), 2] : ℝ)))| ≥ (c : ℝ)
              then true else false),
          ((meanOf [(0 : ℚ), 2] : ℝ) - (meanOf [(5 : ℚ), 5] : ℝ)) /
            Real.sqrt (2 * (((1 : ℚ) : ℝ) /
              (List.length [(0 : ℚ), 2] : ℝ))))) :=
  ⟨⟨by decide, by decide, pooled_02_55, by norm_num⟩,
    c1_is_significant_formula [(0 : ℚ), 2] [(5 : ℚ), 5] 1
      (by decide) (by decide) pooled_02_55 (by norm_num)⟩

lemma isSig_const_ones :
    is_significant [(1 : ℚ), 1, 1, 1, 1] [(1 : ℚ), 1, 1, 1, 1] =
      .error .zeroDivisionError := by
  have hp : _pooled_sample_variance [(1 : ℚ), 1, 1, 1, 1]
      [(1 : ℚ), 1, 1, 1, 1] = .ok 0 := by
    norm_num [_pooled_sample_variance, mean_q, meanOf, pyDiv, exceptBind_ok,
      List.sum_cons, List.sum_nil]
  have herr : pyDiv (0 : ℚ) (List.length [(1 : ℚ), 1, 1, 1, 1] : ℚ) =
      .ok 0 := by
    norm_num [pyDiv]
  have hm : mean_q [(1 : ℚ), 1, 1, 1, 1] = .ok 1 := by
    norm_num [mean_q, meanOf, List.sum_cons, List.sum_nil]
  have hsq : pySqrt (((0 : ℚ) : ℝ) * 2) = .ok 0 := by
    norm_num [pySqrt, Real.sqrt_zero]
  have hdivr : pyDivR (((1 : ℚ) : ℝ) - ((1 : ℚ) : ℝ)) 0 =
      .error .zeroDivisionError := by
    unfold pyDivR
    rw [if_pos rfl]
  have ht : _tscore [(1 : ℚ), 1, 1, 1, 1] [(1 : ℚ), 1, 1, 1, 1] =
      .error .zeroDivisionError := by
    unfold _tscore
    rw [if_pos rfl]
    simp only [hp, exceptBind_ok, herr, hm, hsq, hdivr]
  have hdfq : (((List.length [(1 : ℚ), 1, 1, 1, 1] : ℤ) +
      (List.length [(1 : ℚ), 1, 1, 1, 1] : ℤ) - 2 : ℤ) : ℚ) =
      ((8 : ℤ) : ℚ) := by
    norm_num
  have hcrit : _tdist95conf_level ((8 : ℤ) : ℚ) = .ok 2.306 := by
    simp only [_tdist95conf_level, pyRound_intCast]
    norm_num [_T_DIST_95_CONF_LEVELS]
    rw [pyIndexQ_ok _ _ (by norm_num) (by norm_num [_T_DIST_95_CONF_LEVELS])]
    rfl
  unfold is_significant
  simp only [hdfq, hcrit, exceptBind_ok, ht, exceptBind_error]

/-- C4 counterexample: on the two identical five-element constant samples
the code does not return (False, 0.0). -/
theorem c4_counterexample :
    is_significant [(1 : ℚ), 1, 1, 1, 1] [(1 : ℚ), 1, 1, 1, 1] ≠
      .ok (false, 0) := by
  rw [isSig_const_ones]
  simp

/-- C4 (amended): on two identical five-element constant samples the
pooled variance is 0, the t-score divides by sqrt(0 * 2) = 0, and
is_significant fails with ZeroDivisionError (Python raises on float
division by zero, 0.0/0.0 included) instead of returning (False, 0.0). -/
theorem c4_identical_samples_zero_division :
    is_significant [(1 : ℚ), 1, 1, 1, 1] [(1 : ℚ), 1, 1, 1, 1] =
      .error .zeroDivisionError :=
  isSig_const_ones
